import Mathlib

/-!
Verification of the KMDD virtual input drivers' event-assembly core: the
bounded circular byte queue, the PS/2 packet assembler of the mouse driver,
and the scan-code translator / combo detector of the keyboard driver,
embedded shallowly from `drivers/mouse_driver.c` and
`drivers/keyboard_driver.c`.  Machine integers are modelled as `Nat`/`Int`;
the `(signed char)` casts of the C source are made explicit.
-/

namespace KMDD

/-- Constant `BUFFER_SIZE` of `keyboard_driver.c`, line 31. -/
def KBD_BUFFER_SIZE : Nat := 256

/-- Constant `BUFFER_SIZE` of `mouse_driver.c`, line 39. -/
def MOUSE_BUFFER_SIZE : Nat := 512

/-- Circular byte buffer state shared by both drivers: the `buffer` array
(modelled as a function from index to stored byte), the `head` and `tail`
indices, the `buffer_overflows` statistic, and the fixed array size
(`BUFFER_SIZE` of the respective driver). -/
@[ext]
structure ByteQueue where
  size : Nat
  data : Nat → Nat
  head : Nat
  tail : Nat
  overflows : Nat

/-- Embedding of `buffer_empty`: `dev->head == dev->tail`. -/
def buffer_empty (q : ByteQueue) : Bool :=
  q.head == q.tail

/-- Embedding of `buffer_full`: `((dev->head + 1) % BUFFER_SIZE) == dev->tail`. -/
def buffer_full (q : ByteQueue) : Bool :=
  (q.head + 1) % q.size == q.tail

/-- Embedding of `buffer_push`: if the queue is not full, store the byte at
`head` and advance `head` modulo the size; otherwise increment
`buffer_overflows` and drop the byte. -/
def buffer_push (q : ByteQueue) (b : Nat) : ByteQueue :=
  if !buffer_full q then
    { q with data := fun i => if i = q.head then b else q.data i,
             head := (q.head + 1) % q.size }
  else
    { q with overflows := q.overflows + 1 }

/-- Embedding of `buffer_pop`: if the queue is not empty, return the byte at
`tail` and advance `tail` modulo the size; otherwise return nothing and leave
the state untouched. -/
def buffer_pop (q : ByteQueue) : Option Nat × ByteQueue :=
  if !buffer_empty q then
    (some (q.data q.tail), { q with tail := (q.tail + 1) % q.size })
  else
    (none, q)

/-- The freshly initialised queue of either driver: `head = tail = 0`, all
statistics zero (`kzalloc` zeroes the array). -/
def mkQueue (n : Nat) : ByteQueue :=
  { size := n, data := fun _ => 0, head := 0, tail := 0, overflows := 0 }

/-- Push a whole list of bytes in order (one `buffer_push` per byte, as the
injection interfaces do). -/
def pushList (q : ByteQueue) (bs : List Nat) : ByteQueue :=
  bs.foldl buffer_push q

/-- Perform `n` pops in sequence, collecting each result. -/
def popN (q : ByteQueue) : Nat → List (Option Nat) × ByteQueue
  | 0 => ([], q)
  | n + 1 =>
    let r := buffer_pop q
    let rest := popN r.2 n
    (r.1 :: rest.1, rest.2)

/-- Number of bytes held by the queue, the spec's `count = (head - tail) mod N`
written over `Nat`. -/
def queue_count (q : ByteQueue) : Nat :=
  (q.head + q.size - q.tail) % q.size

/-- Value of a byte reinterpreted through the C cast `(signed char)`:
two's-complement signed 8-bit reading. -/
def sByte (v : Nat) : Int :=
  if v % 256 < 128 then (v % 256 : Int) else (v % 256 : Int) - 256

/-- Embedding of `apply_dpi`: `(value * dpi_multiplier) / 100` with C's
truncated (toward zero) integer division. -/
def apply_dpi (dpi value : Int) : Int :=
  Int.tdiv (value * dpi) 100

/-- Statistics block of `struct vmouse_device` (buffer_overflows lives with
the queue). -/
@[ext]
structure MouseStats where
  total_packets : Nat
  total_clicks : Nat
  left_clicks : Nat
  right_clicks : Nat
  middle_clicks : Nat
  side_clicks : Nat
  forward_clicks : Nat
  scroll_events : Nat
  total_dx : Int
  total_dy : Int
  total_distance : Nat
  invalid_packets : Nat
  deriving DecidableEq

/-- All-zero statistics, the state set up by `kzalloc` in `vmouse_init`. -/
def zeroStats : MouseStats :=
  ⟨0, 0, 0, 0, 0, 0, 0, 0, 0, 0, 0, 0⟩

/-- Pointwise order on the unsigned mouse statistics: every counter and the
Manhattan-distance sum of the first state is at most that of the second
(the signed displacement sums are deliberately not included). -/
def statsLE (a b : MouseStats) : Prop :=
  a.total_packets ≤ b.total_packets ∧
  a.total_clicks ≤ b.total_clicks ∧
  a.left_clicks ≤ b.left_clicks ∧
  a.right_clicks ≤ b.right_clicks ∧
  a.middle_clicks ≤ b.middle_clicks ∧
  a.side_clicks ≤ b.side_clicks ∧
  a.forward_clicks ≤ b.forward_clicks ∧
  a.scroll_events ≤ b.scroll_events ∧
  a.total_distance ≤ b.total_distance ∧
  a.invalid_packets ≤ b.invalid_packets

/-- Decoded output of one motion frame: the button flags, the scaled
displacement and the scroll delta that `process_packet` reports to the
input core. -/
@[ext]
structure MotionState where
  left : Bool
  right : Bool
  middle : Bool
  btn_side : Bool
  btn_forward : Bool
  dx : Int
  dy : Int
  scroll : Int
  deriving DecidableEq

/-- Scroll value extracted from the IntelliMouse extra byte:
`(signed char)((extra & IM_WHEEL_MASK) | ((extra & 0x08) ? 0xF0 : 0x00))`;
the OR of the disjoint bit fields is written as addition. -/
def im_scroll (extra : Nat) : Int :=
  sByte (extra % 16 + (if Nat.testBit extra 3 then 240 else 0))

/-- Pure decoding part of `process_packet` for a validated frame: the
button flags from fixed bit positions of byte 0 (`PS2_LEFT_BTN`,
`PS2_RIGHT_BTN`, `PS2_MIDDLE_BTN`), DPI-scaled displacement with the
mandatory Y sign flip (PS/2 Y axis is inverted), and, in 4-byte mode, the
scroll nibble and the extended buttons (`IM_BTN4`, `IM_BTN5`) of byte 3. -/
def decode_packet (dpi : Int) (size : Nat) (pkt : Nat → Nat) : MotionState :=
  { left := Nat.testBit (pkt 0) 0,
    right := Nat.testBit (pkt 0) 1,
    middle := Nat.testBit (pkt 0) 2,
    btn_side := if size = 4 then Nat.testBit (pkt 3) 4 else false,
    btn_forward := if size = 4 then Nat.testBit (pkt 3) 5 else false,
    dx := apply_dpi dpi (sByte (pkt 1)),
    dy := -(apply_dpi dpi (sByte (pkt 2))),
    scroll := if size = 4 then im_scroll (pkt 3) else 0 }

/-- Statistics increment `dev->total_packets++`. -/
def add_total (st : MouseStats) : MouseStats :=
  { st with total_packets := st.total_packets + 1 }

/-- Statistics increment for a held left button. -/
def add_left (m : MotionState) (st : MouseStats) : MouseStats :=
  if m.left then { st with left_clicks := st.left_clicks + 1,
                           total_clicks := st.total_clicks + 1 } else st

/-- Statistics increment for a held right button. -/
def add_right (m : MotionState) (st : MouseStats) : MouseStats :=
  if m.right then { st with right_clicks := st.right_clicks + 1,
                            total_clicks := st.total_clicks + 1 } else st

/-- Statistics increment for a held middle button. -/
def add_middle (m : MotionState) (st : MouseStats) : MouseStats :=
  if m.middle then { st with middle_clicks := st.middle_clicks + 1,
                             total_clicks := st.total_clicks + 1 } else st

/-- Statistics increment for a held side button. -/
def add_side (m : MotionState) (st : MouseStats) : MouseStats :=
  if m.btn_side then { st with side_clicks := st.side_clicks + 1,
                               total_clicks := st.total_clicks + 1 } else st

/-- Statistics increment for a held forward button. -/
def add_forward (m : MotionState) (st : MouseStats) : MouseStats :=
  if m.btn_forward then { st with forward_clicks := st.forward_clicks + 1,
                                  total_clicks := st.total_clicks + 1 } else st

/-- Statistics increment for a nonzero scroll delta. -/
def add_scroll (m : MotionState) (st : MouseStats) : MouseStats :=
  if m.scroll ≠ 0 then { st with scroll_events := st.scroll_events + 1 } else st

/-- Statistics update for the displacement sums and the Manhattan
distance (`abs(dx) + abs(dy)` after scaling and the sign flip). -/
def add_motion (m : MotionState) (st : MouseStats) : MouseStats :=
  { st with total_dx := st.total_dx + m.dx,
            total_dy := st.total_dy + m.dy,
            total_distance := st.total_distance + (m.dx.natAbs + m.dy.natAbs) }

/-- The statistics block of `process_packet`, in the source's increment
order: total, left, right, middle, side, forward, scroll, displacement. -/
def update_stats (m : MotionState) (st : MouseStats) : MouseStats :=
  add_motion m (add_scroll m (add_forward m (add_side m
    (add_middle m (add_right m (add_left m (add_total st)))))))

/-- Embedding of `process_packet` (minus the input-core reporting calls):
validate the frame (`PS2_ALWAYS_ONE`, bit 3 of byte 0, must be set —
otherwise only the invalid counter is bumped), then decode and update the
statistics. Returns the new statistics and the decoded `MotionState`
(`none` for an invalid frame). -/
def process_packet (dpi : Int) (size : Nat) (pkt : Nat → Nat)
    (st : MouseStats) : MouseStats × Option MotionState :=
  if !Nat.testBit (pkt 0) 3 then
    ({ st with invalid_packets := st.invalid_packets + 1 }, none)
  else
    (update_stats (decode_packet dpi size pkt) st,
     some (decode_packet dpi size pkt))

/-- A concrete 4-slot packet array holding the bytes `a b c e`. -/
def pkt4 (a b c e : Nat) : Nat → Nat :=
  fun i => if i = 0 then a else if i = 1 then b else if i = 2 then c else e

/-- Consumer-side state of `struct vmouse_device`: the byte queue, the
in-flight packet with its fill index, the configured packet size, and the
statistics. -/
@[ext]
structure MouseDev where
  queue : ByteQueue
  packet : Nat → Nat
  packet_idx : Nat
  current_packet_size : Nat
  stats : MouseStats

/-- Device-level `buffer_push` (the top-half `vmouse_simulate_irq` path):
only the queue fields are touched. -/
def mouse_push (d : MouseDev) (b : Nat) : MouseDev :=
  { d with queue := buffer_push d.queue b }

/-- One iteration of the `vmouse_tasklet_handler` loop body for a popped
byte: store it at the fill index, bump the index, and when the index reaches
the configured size decode the frame and reset the index to 0. -/
def mouse_feed (dpi : Int) (d : MouseDev) (b : Nat) : MouseDev × Option MotionState :=
  if d.current_packet_size ≤ d.packet_idx + 1 then
    ({ d with packet := fun i => if i = d.packet_idx then b else d.packet i,
              packet_idx := 0,
              stats := (process_packet dpi d.current_packet_size
                (fun i => if i = d.packet_idx then b else d.packet i) d.stats).1 },
     (process_packet dpi d.current_packet_size
       (fun i => if i = d.packet_idx then b else d.packet i) d.stats).2)
  else
    ({ d with packet := fun i => if i = d.packet_idx then b else d.packet i,
              packet_idx := d.packet_idx + 1 }, none)

/-- Feed a list of bytes through the tasklet loop, keeping only the state. -/
def feedList (dpi : Int) (d : MouseDev) (bs : List Nat) : MouseDev :=
  bs.foldl (fun d b => (mouse_feed dpi d b).1) d

/-- Feed a list of bytes through the tasklet loop, collecting the decoded
motion events in order. -/
def feedAll (dpi : Int) (d : MouseDev) (bs : List Nat) : MouseDev × List MotionState :=
  bs.foldl (fun acc b =>
    let r := mouse_feed dpi acc.1 b
    (r.1, acc.2 ++ r.2.toList)) (d, [])

/-- Freshly initialised mouse device (`vmouse_init`): zeroed state, packet
size chosen by the `intellimouse_mode` parameter. -/
def mouse_init (intellimouse : Bool) : MouseDev :=
  { queue := mkQueue MOUSE_BUFFER_SIZE,
    packet := fun _ => 0,
    packet_idx := 0,
    current_packet_size := if intellimouse then 4 else 3,
    stats := zeroStats }

/-- Sequential operations on the mouse device as offered by the sysfs
interface: injecting a packet (`inject_packet_store`) and toggling
IntelliMouse mode (`intellimouse_store`). -/
inductive MouseOp where
  | inject (vs : List Nat)
  | setMode (b : Bool)

/-- Sequential semantics of `inject_packet_store` followed by a full tasklet
drain: the parse loop reads at most `current_packet_size` values, validates
each is at most 0xFF (all-or-nothing), requires 3 or 4 bytes, and takes the
temporary packet-size switch branch for a 3-byte packet in IntelliMouse
mode; note that branch changes `current_packet_size` without touching
`packet_idx`. -/
def mouse_inject (dpi : Int) (d : MouseDev) (vs : List Nat) : MouseDev :=
  -- the parse loop reads at most current_packet_size values
  if (vs.take d.current_packet_size).any (fun v => 255 < v) then
    d                                              -- -EINVAL, nothing pushed
  else if (vs.take d.current_packet_size).length = 3 ∧ d.current_packet_size = 4 then
    -- temporary switch to 3-byte packets: saved size 4 restored afterwards,
    -- and packet_idx is not touched by the switch
    { feedList dpi { d with current_packet_size := 3 } (vs.take d.current_packet_size)
        with current_packet_size := 4 }
  else if (vs.take d.current_packet_size).length = 3
       ∨ (vs.take d.current_packet_size).length = 4 then
    feedList dpi d (vs.take d.current_packet_size)
  else d                                           -- -EINVAL

/-- Apply one sequential sysfs operation to the mouse device.
`intellimouse_store` resets `packet_idx` when switching the packet size. -/
def mouse_apply (dpi : Int) (d : MouseDev) : MouseOp → MouseDev
  | .inject vs => mouse_inject dpi d vs
  | .setMode b =>
    { d with current_packet_size := if b then 4 else 3, packet_idx := 0 }

/-- States of the mouse device reachable from initialisation through the
sequential sysfs operations. -/
inductive MouseReach (dpi : Int) : MouseDev → Prop
  | init : MouseReach dpi (mouse_init true)
  | step {d : MouseDev} (op : MouseOp) :
      MouseReach dpi d → MouseReach dpi (mouse_apply dpi d op)

/-- Linux keycode constants used by the keyboard driver's logic. -/
def KEY_TAB : Nat := 15
/-- Keycode `KEY_LEFTCTRL`. -/
def KEY_LEFTCTRL : Nat := 29
/-- Keycode `KEY_A`. -/
def KEY_A : Nat := 30
/-- Keycode `KEY_LEFTSHIFT`. -/
def KEY_LEFTSHIFT : Nat := 42
/-- Keycode `KEY_Z`. -/
def KEY_Z : Nat := 44
/-- Keycode `KEY_X`. -/
def KEY_X : Nat := 45
/-- Keycode `KEY_C`. -/
def KEY_C : Nat := 46
/-- Keycode `KEY_V`. -/
def KEY_V : Nat := 47
/-- Keycode `KEY_RIGHTSHIFT`. -/
def KEY_RIGHTSHIFT : Nat := 54
/-- Keycode `KEY_LEFTALT`. -/
def KEY_LEFTALT : Nat := 56
/-- Keycode `KEY_CAPSLOCK`. -/
def KEY_CAPSLOCK : Nat := 58
/-- Keycode `KEY_F4`. -/
def KEY_F4 : Nat := 62
/-- Keycode `KEY_NUMLOCK`. -/
def KEY_NUMLOCK : Nat := 69
/-- Keycode `KEY_SCROLLLOCK`. -/
def KEY_SCROLLLOCK : Nat := 70
/-- Keycode `KEY_RIGHTCTRL`. -/
def KEY_RIGHTCTRL : Nat := 97
/-- Keycode `KEY_RIGHTALT`. -/
def KEY_RIGHTALT : Nat := 100
/-- Keycode `KEY_DELETE`. -/
def KEY_DELETE : Nat := 111

/-- The 128-entry `scancode_to_keycode` table of `keyboard_driver.c`,
with the `KEY_*` macros replaced by their Linux keycode values.
Entry 0 means no mapping. -/
def scancode_to_keycode : List Nat :=
  [0,                               -- 0x00
   1, 2, 3, 4, 5, 6, 7, 8, 9, 10,   -- ESC, 1..9
   11, 12, 13, 14, 15,              -- 0, MINUS, EQUAL, BACKSPACE, TAB
   16, 17, 18, 19, 20, 21, 22, 23, 24, 25,  -- Q W E R T Y U I O P
   26, 27, 28, 29,                  -- LEFTBRACE, RIGHTBRACE, ENTER, LEFTCTRL
   30, 31, 32, 33, 34, 35, 36, 37, 38,      -- A S D F G H J K L
   39, 40, 41, 42, 43,              -- SEMICOLON, APOSTROPHE, GRAVE, LEFTSHIFT, BACKSLASH
   44, 45, 46, 47, 48, 49, 50,      -- Z X C V B N M
   51, 52, 53, 54, 55, 56, 57, 58,  -- COMMA, DOT, SLASH, RIGHTSHIFT, KPASTERISK, LEFTALT, SPACE, CAPSLOCK
   59, 60, 61, 62, 63, 64, 65, 66, 67, 68,  -- F1..F10
   69, 70,                          -- NUMLOCK, SCROLLLOCK
   71, 72, 73, 74, 75, 76, 77, 78, 79, 80, 81, 82, 83,  -- numpad block
   0, 0,                            -- 0x54, 0x55
   86, 87, 88,                      -- 102ND, F11, F12
   0, 0,                            -- 0x59, 0x5A
   125, 126, 127, 116, 142,         -- LEFTMETA, RIGHTMETA, COMPOSE, POWER, SLEEP
   0, 0, 0,                         -- 0x60..0x62
   143,                             -- WAKEUP
   0,                               -- 0x64
   217, 156,                        -- SEARCH, BOOKMARKS
   103, 104, 105, 106, 107, 108, 109, 110, 111,  -- UP, PAGEUP, LEFT, RIGHT, END, DOWN, PAGEDOWN, INSERT, DELETE
   0,                               -- 0x70
   113, 114, 115,                   -- MUTE, VOLUMEDOWN, VOLUMEUP
   164, 166, 165, 163,              -- PLAYPAUSE, STOPCD, PREVIOUSSONG, NEXTSONG
   172, 155, 140, 157,              -- HOMEPAGE, MAIL, CALC, COMPUTER
   96, 97, 100, 102]                -- KPENTER, RIGHTCTRL, RIGHTALT, HOME

/-- Table lookup for a masked scan code (entry 0 meaning unmapped). -/
def scancode_map (sc : Nat) : Nat :=
  scancode_to_keycode.getD sc 0

/-- Number of combos that `check_combos` detects for one keystroke: each
matching fixed pattern increments `combo_detections` by one; nothing fires
on releases. -/
def check_combos (ctrl alt : Bool) (keycode : Nat) (pressed : Bool) : Nat :=
  if !pressed then 0
  else
    (if ctrl && (keycode == KEY_C) then 1 else 0) +
    (if ctrl && (keycode == KEY_Z) then 1 else 0) +
    (if ctrl && (keycode == KEY_V) then 1 else 0) +
    (if ctrl && (keycode == KEY_X) then 1 else 0) +
    (if alt && (keycode == KEY_TAB) then 1 else 0) +
    (if alt && (keycode == KEY_F4) then 1 else 0) +
    (if ctrl && alt && (keycode == KEY_DELETE) then 1 else 0)

/-- A decoded key event: the keycode reported to the input core and whether
it is a press (`true`) or a release (`false`). -/
@[ext]
structure KeyEvent where
  keycode : Nat
  pressed : Bool
  deriving DecidableEq

/-- Consumer-side state of `struct vkbd_device`: byte queue, modifier and
lock flags, and statistics. -/
@[ext]
structure KbdDev where
  queue : ByteQueue
  shift_pressed : Bool
  ctrl_pressed : Bool
  alt_pressed : Bool
  caps_lock : Bool
  num_lock : Bool
  scroll_lock : Bool
  total_keypresses : Nat
  total_keyreleases : Nat
  unknown_scancodes : Nat
  combo_detections : Nat

/-- Device-level `buffer_push` for the keyboard (`vkbd_simulate_irq` path). -/
def kbd_push (d : KbdDev) (b : Nat) : KbdDev :=
  { d with queue := buffer_push d.queue b }

/-- Modifier tracking of the `vkbd_tasklet_handler`: set on press, clear on
release, with the left and right variants coalesced into one flag. -/
def kbd_modifiers (keycode : Nat) (key_release : Bool) (d : KbdDev) : KbdDev :=
  { d with
    shift_pressed :=
      if keycode = KEY_LEFTSHIFT ∨ keycode = KEY_RIGHTSHIFT then !key_release
      else d.shift_pressed,
    ctrl_pressed :=
      if keycode = KEY_LEFTCTRL ∨ keycode = KEY_RIGHTCTRL then !key_release
      else d.ctrl_pressed,
    alt_pressed :=
      if keycode = KEY_LEFTALT ∨ keycode = KEY_RIGHTALT then !key_release
      else d.alt_pressed }

/-- Lock LED toggles: only on press, for the matching lock key. -/
def kbd_locks (keycode : Nat) (key_release : Bool) (d : KbdDev) : KbdDev :=
  if !key_release then
    { d with
      caps_lock := if keycode = KEY_CAPSLOCK then !d.caps_lock else d.caps_lock,
      num_lock := if keycode = KEY_NUMLOCK then !d.num_lock else d.num_lock,
      scroll_lock := if keycode = KEY_SCROLLLOCK then !d.scroll_lock else d.scroll_lock }
  else d

/-- Combo bookkeeping: `check_combos` reads the (already updated) modifier
flags and bumps `combo_detections` once per matching pattern. -/
def kbd_combos (keycode : Nat) (key_release : Bool) (d : KbdDev) : KbdDev :=
  { d with combo_detections :=
      d.combo_detections + check_combos d.ctrl_pressed d.alt_pressed keycode (!key_release) }

/-- Press/release statistics update. -/
def kbd_count (key_release : Bool) (d : KbdDev) : KbdDev :=
  if key_release then { d with total_keyreleases := d.total_keyreleases + 1 }
  else { d with total_keypresses := d.total_keypresses + 1 }

/-- One iteration of the `vkbd_tasklet_handler` loop body for a popped scan
code: split off the release bit (bit 7), translate the masked code through
the table (unmapped codes only bump `unknown_scancodes`), then run the
source's steps in order — modifier tracking, lock toggles, combo check,
press/release statistics — and emit the key event. -/
def kbd_feed (d : KbdDev) (scancode : Nat) : KbdDev × Option KeyEvent :=
  if scancode_map (scancode % 128) = 0 then
    ({ d with unknown_scancodes := d.unknown_scancodes + 1 }, none)
  else
    (kbd_count (Nat.testBit scancode 7)
      (kbd_combos (scancode_map (scancode % 128)) (Nat.testBit scancode 7)
        (kbd_locks (scancode_map (scancode % 128)) (Nat.testBit scancode 7)
          (kbd_modifiers (scancode_map (scancode % 128)) (Nat.testBit scancode 7) d))),
     some ⟨scancode_map (scancode % 128), !Nat.testBit scancode 7⟩)

/-- Freshly initialised keyboard device (`vkbd_init`): everything false / 0. -/
def kbd_init : KbdDev :=
  { queue := mkQueue KBD_BUFFER_SIZE,
    shift_pressed := false, ctrl_pressed := false, alt_pressed := false,
    caps_lock := false, num_lock := false, scroll_lock := false,
    total_keypresses := 0, total_keyreleases := 0,
    unknown_scancodes := 0, combo_detections := 0 }

/-! Theorems -/

/-- C3: the 3-byte frame `[0x09, 0x0A, 0x05]` decodes to left pressed,
right and middle released, `dx = 10`, `dy = -5` at scale 100 and
`dx = 20`, `dy = -10` at scale 200; the 4-byte frame `[0x08, 0, 0, 0x01]`
decodes to scroll `+1` with all buttons false and `dx = dy = 0`;
`[0x08, 0, 0, 0xFF]` decodes to scroll `-1`; and the sign-extended 4-bit
scroll value always lies in `-8..7`. -/
theorem packet_decode_examples :
    (feedAll 100 (mouse_init false) [0x09, 0x0A, 0x05]).2
        = [⟨true, false, false, false, false, 10, -5, 0⟩] ∧
    (feedAll 200 (mouse_init false) [0x09, 0x0A, 0x05]).2
        = [⟨true, false, false, false, false, 20, -10, 0⟩] ∧
    (feedAll 100 (mouse_init true) [0x08, 0x00, 0x00, 0x01]).2
        = [⟨false, false, false, false, false, 0, 0, 1⟩] ∧
    (feedAll 100 (mouse_init true) [0x08, 0x00, 0x00, 0xFF]).2.map MotionState.scroll
        = [-1] ∧
    ∀ extra : Nat, -8 ≤ im_scroll extra ∧ im_scroll extra ≤ 7 := by
  refine ⟨by decide, by decide, by decide, by decide, fun extra => ?_⟩
  have key : im_scroll extra = im_scroll (extra % 16) := by
    unfold im_scroll
    have h1 : extra % 16 % 16 = extra % 16 := Nat.mod_mod_of_dvd _ dvd_rfl
    have h2 : Nat.testBit (extra % 16) 3 = Nat.testBit extra 3 := by
      rw [show (16 : Nat) = 2 ^ 4 from rfl, Nat.testBit_mod_two_pow]
      simp
    rw [h1, h2]
  rw [key]
  have hlt : extra % 16 < 16 := Nat.mod_lt _ (by norm_num)
  revert hlt
  generalize extra % 16 = m
  intro hlt
  interval_cases m <;> exact ⟨by decide, by decide⟩

/-- C4: a completed motion frame whose status byte has bit 3 clear produces
no event, increments only the invalid-frame counter, and the tasklet resets
the fill index to 0 whenever a frame completes. -/
theorem invalid_frame_stats (dpi : Int) (size : Nat) (pkt : Nat → Nat)
    (st : MouseStats) (hbit : Nat.testBit (pkt 0) 3 = false)
    (d : MouseDev) (b : Nat)
    (hfill : d.current_packet_size ≤ d.packet_idx + 1) :
    process_packet dpi size pkt st
        = ({ st with invalid_packets := st.invalid_packets + 1 }, none) ∧
    (mouse_feed dpi d b).1.packet_idx = 0 := by
  constructor
  · unfold process_packet
    rw [hbit]
    rfl
  · unfold mouse_feed
    split
    · rfl
    · next h => exact absurd hfill h

/-- Witness for `invalid_frame_stats` at the frame `[0, 0, 0]` filled into
a device one byte short of completion. -/
theorem invalid_frame_stats_witness :
    Nat.testBit 0 3 = false ∧
    (3 : Nat) ≤ 2 + 1 ∧
    (process_packet 100 3 (fun _ => 0) zeroStats
        = ({ zeroStats with invalid_packets := zeroStats.invalid_packets + 1 }, none) ∧
     (mouse_feed 100 { mouse_init false with packet_idx := 2 } 0).1.packet_idx = 0) :=
  ⟨by decide, by decide,
   invalid_frame_stats 100 3 (fun _ => 0) zeroStats (by decide)
     { mouse_init false with packet_idx := 2 } 0 (by decide)⟩

/-- C2: a push onto a full queue only increments the overflow counter,
leaving the array contents, head, tail and every device statistic unchanged
(the pushed byte is discarded); this holds for both drivers' devices. -/
theorem push_full_drops (q : ByteQueue) (b : Nat) (hq : buffer_full q = true)
    (md : MouseDev) (hm : buffer_full md.queue = true) (b2 : Nat)
    (kd : KbdDev) (hk : buffer_full kd.queue = true) (b3 : Nat) :
    buffer_push q b = { q with overflows := q.overflows + 1 } ∧
    mouse_push md b2
      = { md with queue := { md.queue with overflows := md.queue.overflows + 1 } } ∧
    kbd_push kd b3
      = { kd with queue := { kd.queue with overflows := kd.queue.overflows + 1 } } := by
  have key : ∀ (r : ByteQueue) (c : Nat), buffer_full r = true →
      buffer_push r c = { r with overflows := r.overflows + 1 } := by
    intro r c hr
    unfold buffer_push
    rw [hr]
    rfl
  exact ⟨key q b hq, by unfold mouse_push; rw [key md.queue b2 hm],
         by unfold kbd_push; rw [key kd.queue b3 hk]⟩

/-- Witness for `push_full_drops` at concrete full queues of both sizes. -/
theorem push_full_drops_witness :
    buffer_full { mkQueue 512 with head := 511 } = true ∧
    buffer_full { mouse_init true with
        queue := { mkQueue 512 with head := 511 } }.queue = true ∧
    buffer_full { kbd_init with
        queue := { mkQueue 256 with head := 255 } }.queue = true ∧
    (buffer_push { mkQueue 512 with head := 511 } 7
        = { ({ mkQueue 512 with head := 511 } : ByteQueue) with overflows := 1 } ∧
     mouse_push { mouse_init true with queue := { mkQueue 512 with head := 511 } } 7
        = { ({ mouse_init true with queue := { mkQueue 512 with head := 511 } } : MouseDev) with
            queue := { ({ mkQueue 512 with head := 511 } : ByteQueue) with overflows := 1 } } ∧
     kbd_push { kbd_init with queue := { mkQueue 256 with head := 255 } } 7
        = { ({ kbd_init with queue := { mkQueue 256 with head := 255 } } : KbdDev) with
            queue := { ({ mkQueue 256 with head := 255 } : ByteQueue) with overflows := 1 } }) :=
  ⟨by decide, by decide, by decide,
   push_full_drops { mkQueue 512 with head := 511 } 7 (by decide)
     { mouse_init true with queue := { mkQueue 512 with head := 511 } } (by decide) 7
     { kbd_init with queue := { mkQueue 256 with head := 255 } } (by decide) 7⟩

/-- C6 counterexample: the keyboard device's queue has capacity 256, not
512 as claimed (`BUFFER_SIZE` is 256 in `keyboard_driver.c`). -/
theorem kbd_capacity_cex :
    kbd_init.queue.size = 256 ∧ ¬ kbd_init.queue.size = 512 := by
  exact ⟨rfl, by decide⟩

/-- C6 amended: the queue capacity is 256 for the keys device and 512 for
the motion device, and for well-formed indices the queue reports full
exactly when it holds `N - 1` bytes (one slot kept empty). -/
theorem queue_capacity_and_full_iff (N : Nat) (q : ByteQueue) (hs : q.size = N)
    (hh : q.head < N) (ht : q.tail < N) :
    kbd_init.queue.size = 256 ∧
    (mouse_init true).queue.size = 512 ∧
    (buffer_full q = true ↔ queue_count q = N - 1) := by
  refine ⟨rfl, rfl, ?_⟩
  unfold buffer_full queue_count
  rw [hs, beq_iff_eq]
  rcases Nat.lt_or_ge (q.head + 1) N with h1 | h1
  · rw [Nat.mod_eq_of_lt h1]
    rcases Nat.lt_or_ge (q.head + N - q.tail) N with h2 | h2
    · rw [Nat.mod_eq_of_lt h2]; omega
    · rw [Nat.mod_eq_sub_mod h2, Nat.mod_eq_of_lt (by omega)]; omega
  · have h1' : q.head + 1 = N := by omega
    rw [h1', Nat.mod_self]
    rw [Nat.mod_eq_sub_mod (by omega), Nat.mod_eq_of_lt (by omega)]
    omega

/-- Witness for `queue_capacity_and_full_iff` at a concrete queue. -/
theorem queue_capacity_and_full_iff_witness :
    ({ mkQueue 512 with head := 300, tail := 4 } : ByteQueue).size = 512 ∧
    ({ mkQueue 512 with head := 300, tail := 4 } : ByteQueue).head < 512 ∧
    ({ mkQueue 512 with head := 300, tail := 4 } : ByteQueue).tail < 512 ∧
    (kbd_init.queue.size = 256 ∧
     (mouse_init true).queue.size = 512 ∧
     (buffer_full { mkQueue 512 with head := 300, tail := 4 } = true ↔
      queue_count { mkQueue 512 with head := 300, tail := 4 } = 512 - 1)) :=
  ⟨by decide, by decide, by decide,
   queue_capacity_and_full_iff 512 { mkQueue 512 with head := 300, tail := 4 }
     rfl (by decide) (by decide)⟩

/-- A keycode that is none of the modifier keys leaves all modifier flags
untouched. -/
theorem kbd_modifiers_other (kc : Nat) (r : Bool) (d : KbdDev)
    (h1 : ¬(kc = KEY_LEFTSHIFT ∨ kc = KEY_RIGHTSHIFT))
    (h2 : ¬(kc = KEY_LEFTCTRL ∨ kc = KEY_RIGHTCTRL))
    (h3 : ¬(kc = KEY_LEFTALT ∨ kc = KEY_RIGHTALT)) :
    kbd_modifiers kc r d = d := by
  unfold kbd_modifiers
  simp only [if_neg h1, if_neg h2, if_neg h3]

/-- A keycode that is none of the lock keys leaves all lock flags
untouched. -/
theorem kbd_locks_other (kc : Nat) (r : Bool) (d : KbdDev)
    (h1 : ¬ kc = KEY_CAPSLOCK) (h2 : ¬ kc = KEY_NUMLOCK)
    (h3 : ¬ kc = KEY_SCROLLLOCK) :
    kbd_locks kc r d = d := by
  unfold kbd_locks
  split
  · simp only [if_neg h1, if_neg h2, if_neg h3]
  · rfl

/-- Evaluation of one tasklet step on scan code `0x1E` (press of key A). -/
theorem kbd_feed_0x1E (d : KbdDev) :
    kbd_feed d 0x1E
      = ({ d with total_keypresses := d.total_keypresses + 1 }, some ⟨KEY_A, true⟩) := by
  unfold kbd_feed
  rw [if_neg (by decide : ¬ scancode_map (0x1E % 128) = 0)]
  rw [show scancode_map (0x1E % 128) = KEY_A from rfl,
      show Nat.testBit 0x1E 7 = false from rfl]
  rw [kbd_modifiers_other _ _ _ (by decide) (by decide) (by decide),
      kbd_locks_other _ _ _ (by decide) (by decide) (by decide)]
  simp [kbd_combos, kbd_count, check_combos, KEY_A, KEY_C, KEY_Z, KEY_V,
        KEY_X, KEY_TAB, KEY_F4, KEY_DELETE]

/-- Evaluation of one tasklet step on scan code `0x9E` (release of key A). -/
theorem kbd_feed_0x9E (d : KbdDev) :
    kbd_feed d 0x9E
      = ({ d with total_keyreleases := d.total_keyreleases + 1 }, some ⟨KEY_A, false⟩) := by
  unfold kbd_feed
  rw [if_neg (by decide : ¬ scancode_map (0x9E % 128) = 0)]
  rw [show scancode_map (0x9E % 128) = KEY_A from rfl,
      show Nat.testBit 0x9E 7 = true from rfl]
  rw [kbd_modifiers_other _ _ _ (by decide) (by decide) (by decide),
      kbd_locks_other _ _ _ (by decide) (by decide) (by decide)]
  simp [kbd_combos, kbd_count, check_combos]

/-- Evaluation of one tasklet step on scan code `0x1D` (press of left
ctrl): the ctrl flag is set, no combo fires. -/
theorem kbd_feed_0x1D (d : KbdDev) :
    kbd_feed d 0x1D
      = ({ d with ctrl_pressed := true,
                  total_keypresses := d.total_keypresses + 1 },
         some ⟨KEY_LEFTCTRL, true⟩) := by
  unfold kbd_feed
  rw [if_neg (by decide : ¬ scancode_map (0x1D % 128) = 0)]
  rw [show scancode_map (0x1D % 128) = KEY_LEFTCTRL from rfl,
      show Nat.testBit 0x1D 7 = false from rfl]
  have hm : kbd_modifiers KEY_LEFTCTRL false d = { d with ctrl_pressed := true } := by
    unfold kbd_modifiers
    simp only [if_neg (by decide : ¬(KEY_LEFTCTRL = KEY_LEFTSHIFT ∨ KEY_LEFTCTRL = KEY_RIGHTSHIFT)),
               if_pos (Or.inl rfl : KEY_LEFTCTRL = KEY_LEFTCTRL ∨ KEY_LEFTCTRL = KEY_RIGHTCTRL),
               if_neg (by decide : ¬(KEY_LEFTCTRL = KEY_LEFTALT ∨ KEY_LEFTCTRL = KEY_RIGHTALT))]
    simp
  rw [hm, kbd_locks_other _ _ _ (by decide) (by decide) (by decide)]
  simp [kbd_combos, kbd_count, check_combos, KEY_LEFTCTRL, KEY_C, KEY_Z, KEY_V,
        KEY_X, KEY_TAB, KEY_F4, KEY_DELETE]

/-- Evaluation of one tasklet step on scan code `0x9D` (release of left
ctrl): the ctrl flag is cleared, no combo fires. -/
theorem kbd_feed_0x9D (d : KbdDev) :
    kbd_feed d 0x9D
      = ({ d with ctrl_pressed := false,
                  total_keyreleases := d.total_keyreleases + 1 },
         some ⟨KEY_LEFTCTRL, false⟩) := by
  unfold kbd_feed
  rw [if_neg (by decide : ¬ scancode_map (0x9D % 128) = 0)]
  rw [show scancode_map (0x9D % 128) = KEY_LEFTCTRL from rfl,
      show Nat.testBit 0x9D 7 = true from rfl]
  have hm : kbd_modifiers KEY_LEFTCTRL true d = { d with ctrl_pressed := false } := by
    unfold kbd_modifiers
    simp only [if_neg (by decide : ¬(KEY_LEFTCTRL = KEY_LEFTSHIFT ∨ KEY_LEFTCTRL = KEY_RIGHTSHIFT)),
               if_pos (Or.inl rfl : KEY_LEFTCTRL = KEY_LEFTCTRL ∨ KEY_LEFTCTRL = KEY_RIGHTCTRL),
               if_neg (by decide : ¬(KEY_LEFTCTRL = KEY_LEFTALT ∨ KEY_LEFTCTRL = KEY_RIGHTALT))]
    simp
  rw [hm, kbd_locks_other _ _ _ (by decide) (by decide) (by decide)]
  simp [kbd_combos, kbd_count, check_combos]

/-- Evaluation of one tasklet step on scan code `0x2E` (press of key C):
no modifier or lock changes, and the combo counter advances by the number
of combos matching key C under the current modifier flags. -/
theorem kbd_feed_0x2E (d : KbdDev) :
    kbd_feed d 0x2E
      = ({ d with
           combo_detections :=
             d.combo_detections + check_combos d.ctrl_pressed d.alt_pressed KEY_C true,
           total_keypresses := d.total_keypresses + 1 },
         some ⟨KEY_C, true⟩) := by
  unfold kbd_feed
  rw [if_neg (by decide : ¬ scancode_map (0x2E % 128) = 0)]
  rw [show scancode_map (0x2E % 128) = KEY_C from rfl,
      show Nat.testBit 0x2E 7 = false from rfl]
  rw [kbd_modifiers_other _ _ _ (by decide) (by decide) (by decide),
      kbd_locks_other _ _ _ (by decide) (by decide) (by decide)]
  simp [kbd_combos, kbd_count]

/-- C8: scan codes `0x1E` and `0x9E` both map to the key identity `KEY_A`;
the first feeds a press event and increments only the press counter, the
second feeds a release event and increments only the release counter, and
every other field — in particular the three modifier flags — is unchanged
throughout (the record updates name the only fields that change). -/
theorem key_press_release_cycle (d : KbdDev) :
    kbd_feed d 0x1E
      = ({ d with total_keypresses := d.total_keypresses + 1 }, some ⟨KEY_A, true⟩) ∧
    (kbd_feed (kbd_feed d 0x1E).1 0x9E).1
      = { d with total_keypresses := d.total_keypresses + 1,
                 total_keyreleases := d.total_keyreleases + 1 } ∧
    (kbd_feed (kbd_feed d 0x1E).1 0x9E).2 = some ⟨KEY_A, false⟩ := by
  have h1 := kbd_feed_0x1E d
  have h2 := kbd_feed_0x9E ({ d with total_keypresses := d.total_keypresses + 1 })
  refine ⟨h1, ?_, ?_⟩
  · rw [h1]
    rw [show ((({ d with total_keypresses := d.total_keypresses + 1 } : KbdDev),
        some (⟨KEY_A, true⟩ : KeyEvent)).1) = ({ d with total_keypresses := d.total_keypresses + 1 } : KbdDev) from rfl]
    rw [h2]
  · rw [h1]
    rw [show ((({ d with total_keypresses := d.total_keypresses + 1 } : KbdDev),
        some (⟨KEY_A, true⟩ : KeyEvent)).1) = ({ d with total_keypresses := d.total_keypresses + 1 } : KbdDev) from rfl]
    rw [h2]

/-- C9: from a state with ctrl and alt released, pressing left ctrl
(`0x1D`) and then key C (`0x2E`) increments the combo counter by exactly
one; releasing ctrl (`0x9D`) before pressing C leaves the combo counter
unchanged; and the combo check never fires on a release event. -/
theorem ctrl_combo_fires (d : KbdDev) (_hc : d.ctrl_pressed = false)
    (ha : d.alt_pressed = false) :
    (kbd_feed (kbd_feed d 0x1D).1 0x2E).1.combo_detections
        = d.combo_detections + 1 ∧
    (kbd_feed (kbd_feed (kbd_feed d 0x1D).1 0x9D).1 0x2E).1.combo_detections
        = d.combo_detections ∧
    (∀ (c a : Bool) (kc : Nat), check_combos c a kc false = 0) := by
  refine ⟨?_, ?_, fun c a kc => rfl⟩
  · rw [kbd_feed_0x1D d]
    rw [kbd_feed_0x2E]
    simp [ha, check_combos, KEY_C, KEY_Z, KEY_V, KEY_X, KEY_TAB, KEY_F4, KEY_DELETE]
  · rw [kbd_feed_0x1D d]
    rw [kbd_feed_0x9D]
    rw [kbd_feed_0x2E]
    simp [ha, check_combos, KEY_C, KEY_Z, KEY_V, KEY_X, KEY_TAB, KEY_F4, KEY_DELETE]

/-- Witness for `ctrl_combo_fires` at the freshly initialised keyboard. -/
theorem ctrl_combo_fires_witness :
    kbd_init.ctrl_pressed = false ∧
    kbd_init.alt_pressed = false ∧
    ((kbd_feed (kbd_feed kbd_init 0x1D).1 0x2E).1.combo_detections
        = kbd_init.combo_detections + 1 ∧
     (kbd_feed (kbd_feed (kbd_feed kbd_init 0x1D).1 0x9D).1 0x2E).1.combo_detections
        = kbd_init.combo_detections ∧
     (∀ (c a : Bool) (kc : Nat), check_combos c a kc false = 0)) :=
  ⟨rfl, rfl, ctrl_combo_fires kbd_init rfl rfl⟩

/-- Running `buffer_push` over a byte list from a queue whose indices have
not wrapped (tail 0, head equal to the number of bytes already stored)
stores the bytes contiguously and never overflows, as long as the total
stays below the capacity. -/
theorem pushList_run (N : Nat) (hN : 0 < N) :
    ∀ (bs pre : List Nat) (q : ByteQueue),
      q.size = N → q.tail = 0 → q.head = pre.length → q.overflows = 0 →
      (∀ i, i < pre.length → q.data i = pre.getD i 0) →
      pre.length + bs.length ≤ N - 1 →
      (pushList q bs).size = N ∧ (pushList q bs).tail = 0 ∧
      (pushList q bs).head = pre.length + bs.length ∧
      (pushList q bs).overflows = 0 ∧
      (∀ i, i < pre.length + bs.length →
        (pushList q bs).data i = (pre ++ bs).getD i 0) := by
  intro bs
  induction bs with
  | nil =>
    intro pre q hs ht hh ho hd hlen
    refine ⟨hs, ht, by simpa using hh, ho, ?_⟩
    intro i hi
    simp only [List.append_nil]
    exact hd i (by simpa using hi)
  | cons b bs ih =>
    intro pre q hs ht hh ho hd hlen
    have hlen1 : pre.length + 1 ≤ N - 1 := by
      simp only [List.length_cons] at hlen; omega
    have hmod : (pre.length + 1) % N = pre.length + 1 :=
      Nat.mod_eq_of_lt (by omega)
    have hnotfull : buffer_full q = false := by
      unfold buffer_full
      rw [hs, ht, hh, hmod]
      simp
    have hq' : buffer_push q b =
        { q with data := fun i => if i = q.head then b else q.data i,
                 head := (q.head + 1) % q.size } := by
      unfold buffer_push
      rw [hnotfull]
      rfl
    have hfold : pushList q (b :: bs) = pushList (buffer_push q b) bs := rfl
    have step := ih (pre ++ [b]) (buffer_push q b)
      (by rw [hq']; exact hs)
      (by rw [hq']; exact ht)
      (by rw [hq']
          show (q.head + 1) % q.size = (pre ++ [b]).length
          rw [hh, hs, hmod]
          simp)
      (by rw [hq']; exact ho)
      (by rw [hq']
          intro i hi
          show (if i = q.head then b else q.data i) = (pre ++ [b]).getD i 0
          by_cases hcase : i = q.head
          · have hip : i = pre.length := hcase.trans hh
            rw [if_pos hcase, hip,
                List.getD_append_right pre [b] 0 pre.length le_rfl]
            simp
          · have hip : i < pre.length := by
              simp only [List.length_append, List.length_cons,
                         List.length_nil] at hi
              omega
            rw [if_neg hcase, List.getD_append pre [b] 0 i hip]
            exact hd i hip)
      (by simp only [List.length_append, List.length_cons, List.length_nil]
          simp only [List.length_cons] at hlen
          omega)
    obtain ⟨s1, s2, s3, s4, s5⟩ := step
    rw [hfold]
    refine ⟨s1, s2, ?_, s4, ?_⟩
    · rw [s3]; simp [List.length_append]; omega
    · intro i hi
      have hi' : i < (pre ++ [b]).length + bs.length := by
        simp only [List.length_append, List.length_cons, List.length_nil]
        simp only [List.length_cons] at hi
        omega
      have := s5 i hi'
      simpa using this

/-- Running `buffer_pop` repeatedly on a queue holding the bytes of `bs`
contiguously (no wraparound) returns exactly those bytes in order and
advances only the tail. -/
theorem popN_run (N : Nat) :
    ∀ (bs : List Nat) (t : Nat) (q : ByteQueue),
      q.size = N → q.tail = t → q.head = t + bs.length → t + bs.length < N →
      (∀ i, i < bs.length → q.data (t + i) = bs.getD i 0) →
      popN q bs.length = (bs.map some, { q with tail := t + bs.length }) := by
  intro bs
  induction bs with
  | nil =>
    intro t q hs ht hh hb hd
    show ([], q) = ([], { q with tail := t + 0 })
    rw [← ht]
    rfl
  | cons b bs ih =>
    intro t q hs ht hh hb hd
    have hne : buffer_empty q = false := by
      unfold buffer_empty
      rw [ht, hh]
      simp only [List.length_cons]
      simp
    have hpop : buffer_pop q =
        (some (q.data q.tail), { q with tail := (q.tail + 1) % q.size }) := by
      unfold buffer_pop
      rw [hne]
      rfl
    have hmod : (t + 1) % N = t + 1 := by
      apply Nat.mod_eq_of_lt
      simp only [List.length_cons] at hb
      omega
    have hb0 : q.data t = b := by
      have := hd 0 (by simp)
      simpa using this
    have step := ih (t + 1) ({ q with tail := (q.tail + 1) % q.size })
      hs
      (by show (q.tail + 1) % q.size = t + 1; rw [ht, hs, hmod])
      (by show q.head = t + 1 + bs.length
          rw [hh]; simp [List.length_cons]; omega)
      (by simp only [List.length_cons] at hb; omega)
      (by intro i hi
          show q.data (t + 1 + i) = bs.getD i 0
          have := hd (i + 1) (by simp only [List.length_cons]; omega)
          have harg : t + (i + 1) = t + 1 + i := by omega
          rw [harg] at this
          simpa using this)
    show (let r := buffer_pop q
          let rest := popN r.2 bs.length
          (r.1 :: rest.1, rest.2)) = _
    rw [hpop]
    show ((some (q.data q.tail)) :: (popN _ bs.length).1,
          (popN _ bs.length).2) = _
    rw [step, ht, hb0]
    show (some b :: bs.map some, { q with tail := t + 1 + bs.length }) = _
    simp only [List.map_cons, List.length_cons]
    rw [show t + 1 + bs.length = t + (bs.length + 1) from by omega]

/-- C1: pushing at most `N - 1` bytes into the initially empty queue never
hits a full queue (the overflow counter stays 0), the same number of pops
returns exactly those bytes in order, and a further pop on the then-empty
queue returns `none` and leaves the queue unchanged. -/
theorem queue_fifo (N : Nat) (bs : List Nat) (hN : 0 < N)
    (hlen : bs.length ≤ N - 1) :
    (pushList (mkQueue N) bs).overflows = 0 ∧
    (popN (pushList (mkQueue N) bs) bs.length).1 = bs.map some ∧
    buffer_pop (popN (pushList (mkQueue N) bs) bs.length).2
      = (none, (popN (pushList (mkQueue N) bs) bs.length).2) := by
  obtain ⟨hs, ht, hh, ho, hd⟩ := pushList_run N hN bs [] (mkQueue N)
    rfl rfl rfl rfl (by intro i hi; simp at hi) (by simpa using hlen)
  have hpop := popN_run N bs 0 (pushList (mkQueue N) bs)
    hs ht (by simpa using hh) (by omega)
    (by intro i hi
        have := hd i (by simpa using hi)
        simpa using this)
  rw [hpop]
  refine ⟨ho, rfl, ?_⟩
  have hempty : buffer_empty
      ({ pushList (mkQueue N) bs with tail := 0 + bs.length } : ByteQueue)
      = true := by
    unfold buffer_empty
    show (_ == _) = true
    rw [beq_iff_eq]
    show (pushList (mkQueue N) bs).head = 0 + bs.length
    rw [hh]
    simp
  unfold buffer_pop
  rw [hempty]
  rfl

/-- Witness for `queue_fifo`: three bytes through the motion queue. -/
theorem queue_fifo_witness :
    0 < 512 ∧ ([1, 2, 3] : List Nat).length ≤ 512 - 1 ∧
    ((pushList (mkQueue 512) [1, 2, 3]).overflows = 0 ∧
     (popN (pushList (mkQueue 512) [1, 2, 3]) ([1, 2, 3] : List Nat).length).1
        = ([1, 2, 3] : List Nat).map some ∧
     buffer_pop (popN (pushList (mkQueue 512) [1, 2, 3]) ([1, 2, 3] : List Nat).length).2
        = (none, (popN (pushList (mkQueue 512) [1, 2, 3]) ([1, 2, 3] : List Nat).length).2)) :=
  ⟨by decide, by decide, queue_fifo 512 [1, 2, 3] (by decide) (by decide)⟩

/-- C10: two valid frames whose status bytes agree on bits 0-2 (and both
have the validity bit 3 set) but may differ in bits 4-7 — the X/Y sign and
overflow bits — decode to the same `MotionState` and produce the same
statistics update: the decoder never reads bits 4-7 of byte 0. -/
theorem status_upper_bits_independent (dpi : Int) (size : Nat)
    (st : MouseStats) (b0 b0' b1 b2 b3 : Nat)
    (h3 : Nat.testBit b0 3 = true) (h3' : Nat.testBit b0' 3 = true)
    (hlow : b0 % 8 = b0' % 8) :
    process_packet dpi size (pkt4 b0 b1 b2 b3) st
      = process_packet dpi size (pkt4 b0' b1 b2 b3) st := by
  have e0 : Nat.testBit b0 0 = Nat.testBit b0' 0 := by
    rw [Nat.testBit_to_div_mod, Nat.testBit_to_div_mod, decide_eq_decide]
    norm_num
    omega
  have e1 : Nat.testBit b0 1 = Nat.testBit b0' 1 := by
    rw [Nat.testBit_to_div_mod, Nat.testBit_to_div_mod, decide_eq_decide]
    norm_num
    omega
  have e2 : Nat.testBit b0 2 = Nat.testBit b0' 2 := by
    rw [Nat.testBit_to_div_mod, Nat.testBit_to_div_mod, decide_eq_decide]
    norm_num
    omega
  unfold process_packet decode_packet
  rw [show pkt4 b0 b1 b2 b3 0 = b0 from rfl,
      show pkt4 b0 b1 b2 b3 1 = b1 from rfl,
      show pkt4 b0 b1 b2 b3 2 = b2 from rfl,
      show pkt4 b0 b1 b2 b3 3 = b3 from rfl,
      show pkt4 b0' b1 b2 b3 0 = b0' from rfl,
      show pkt4 b0' b1 b2 b3 1 = b1 from rfl,
      show pkt4 b0' b1 b2 b3 2 = b2 from rfl,
      show pkt4 b0' b1 b2 b3 3 = b3 from rfl,
      h3, h3', e0, e1, e2]

/-- Witness for `status_upper_bits_independent`: status bytes `0x09` and
`0x99` (sign and overflow bits flipped) on the same displacement bytes. -/
theorem status_upper_bits_independent_witness :
    Nat.testBit 0x09 3 = true ∧ Nat.testBit 0x99 3 = true ∧
    0x09 % 8 = 0x99 % 8 ∧
    process_packet 100 3 (pkt4 0x09 0x0A 0x05 0) zeroStats
      = process_packet 100 3 (pkt4 0x99 0x0A 0x05 0) zeroStats :=
  ⟨by decide, by decide, by decide,
   status_upper_bits_independent 100 3 zeroStats 0x09 0x99 0x0A 0x05 0
     (by decide) (by decide) (by decide)⟩

/-- Feeding a byte list to the tasklet loop advances the fill index by the
list length modulo the packet size and never changes the packet size. -/
theorem feedList_packet_idx (dpi : Int) :
    ∀ (bs : List Nat) (d : MouseDev),
      d.packet_idx < d.current_packet_size →
      (feedList dpi d bs).packet_idx
          = (d.packet_idx + bs.length) % d.current_packet_size ∧
      (feedList dpi d bs).current_packet_size = d.current_packet_size := by
  intro bs
  induction bs with
  | nil =>
    intro d h
    refine ⟨?_, rfl⟩
    show d.packet_idx = (d.packet_idx + 0) % d.current_packet_size
    rw [Nat.add_zero, Nat.mod_eq_of_lt h]
  | cons b bs ih =>
    intro d h
    have hfold : feedList dpi d (b :: bs)
        = feedList dpi ((mouse_feed dpi d b).1) bs := rfl
    have hsize : (mouse_feed dpi d b).1.current_packet_size
        = d.current_packet_size := by
      unfold mouse_feed
      split <;> rfl
    have hidx : (mouse_feed dpi d b).1.packet_idx
        = (d.packet_idx + 1) % d.current_packet_size := by
      unfold mouse_feed
      split
      · next hcond =>
        show 0 = (d.packet_idx + 1) % d.current_packet_size
        rw [show d.packet_idx + 1 = d.current_packet_size from by omega,
            Nat.mod_self]
      · next hcond =>
        show d.packet_idx + 1 = (d.packet_idx + 1) % d.current_packet_size
        rw [Nat.mod_eq_of_lt (by omega)]
    have h1 : (mouse_feed dpi d b).1.packet_idx
        < (mouse_feed dpi d b).1.current_packet_size := by
      rw [hidx, hsize]
      exact Nat.mod_lt _ (by omega)
    obtain ⟨ha, hb⟩ := ih (mouse_feed dpi d b).1 h1
    rw [hfold]
    refine ⟨?_, by rw [hb, hsize]⟩
    rw [ha, hidx, hsize, Nat.mod_add_mod]
    simp only [List.length_cons]
    congr 1
    omega

/-- C5 counterexample: the 3-byte injection path in 4-byte mode changes
the expected frame length without resetting the fill index. Started on a
device with two stale bytes in the frame (fill index 2), injecting the
3-byte packet `[0x08, 0x00, 0x00]` leaves the fill index at 2 instead of 0
and decodes a frame built from the stale bytes: the displacement sum
becomes nonzero although every injected displacement byte was `0x00`. -/
theorem inject_no_reset_cex :
    (mouse_apply 100
        { queue := mkQueue 512, packet := pkt4 0x08 0xBB 0 0, packet_idx := 2,
          current_packet_size := 4, stats := zeroStats }
        (MouseOp.inject [0x08, 0x00, 0x00])).packet_idx ≠ 0 ∧
    (mouse_apply 100
        { queue := mkQueue 512, packet := pkt4 0x08 0xBB 0 0, packet_idx := 2,
          current_packet_size := 4, stats := zeroStats }
        (MouseOp.inject [0x08, 0x00, 0x00])).stats.total_dx ≠ 0 := by
  decide

/-- C5 amended: in every state reachable through the sequential sysfs
operations the fill index is 0 — in particular it never exceeds the
expected frame length (3 or 4) — and the mode-toggle operation always
resets the fill index. The 3-byte injection path does not reset the fill
index, but from every reachable state it runs with fill index 0, so no
frame is decoded from bytes captured under a different length setting. -/
theorem mouse_fill_index_inv (dpi : Int) (d : MouseDev)
    (h : MouseReach dpi d) :
    d.packet_idx = 0 ∧
    (d.current_packet_size = 3 ∨ d.current_packet_size = 4) ∧
    d.packet_idx < d.current_packet_size ∧
    (∀ (e : MouseDev) (b : Bool),
      (mouse_apply dpi e (MouseOp.setMode b)).packet_idx = 0) := by
  have main : d.packet_idx = 0 ∧
      (d.current_packet_size = 3 ∨ d.current_packet_size = 4) := by
    induction h with
    | init => exact ⟨rfl, Or.inr rfl⟩
    | @step d' op hreach ih =>
      obtain ⟨hidx, hsz⟩ := ih
      cases op with
      | setMode b =>
        cases b
        · exact ⟨rfl, Or.inl rfl⟩
        · exact ⟨rfl, Or.inr rfl⟩
      | inject vs =>
        have hpos : 0 < d'.current_packet_size := by
          rcases hsz with h | h <;> omega
        show (mouse_inject dpi d' vs).packet_idx = 0 ∧
            ((mouse_inject dpi d' vs).current_packet_size = 3 ∨
             (mouse_inject dpi d' vs).current_packet_size = 4)
        unfold mouse_inject
        split_ifs with h1 h2 h3
        · exact ⟨hidx, hsz⟩
        · have hlt : ({ d' with current_packet_size := 3 } : MouseDev).packet_idx
              < ({ d' with current_packet_size := 3 } : MouseDev).current_packet_size := by
            show d'.packet_idx < 3
            omega
          obtain ⟨ha, hb⟩ := feedList_packet_idx dpi
            (vs.take d'.current_packet_size) { d' with current_packet_size := 3 } hlt
          constructor
          · show (feedList dpi { d' with current_packet_size := 3 }
                (vs.take d'.current_packet_size)).packet_idx = 0
            rw [ha]
            show (d'.packet_idx + (vs.take d'.current_packet_size).length) % 3 = 0
            rw [hidx, h2.1]
          · exact Or.inr rfl
        · obtain ⟨ha, hb⟩ := feedList_packet_idx dpi
            (vs.take d'.current_packet_size) d' (by omega)
          have hlen : (vs.take d'.current_packet_size).length
              ≤ d'.current_packet_size := List.length_take_le _ _
          constructor
          · rw [ha, hidx]
            rcases hsz with hs | hs
            · have hlen3 : (vs.take d'.current_packet_size).length = 3 := by
                rcases h3 with hx | hx
                · exact hx
                · omega
              rw [hlen3, hs]
            · have hlen4 : (vs.take d'.current_packet_size).length = 4 := by
                rcases h3 with hx | hx
                · exact absurd ⟨hx, hs⟩ h2
                · exact hx
              rw [hlen4, hs]
          · rw [hb]
            exact hsz
        · exact ⟨hidx, hsz⟩
  refine ⟨main.1, main.2, ?_, fun e b => rfl⟩
  rcases main.2 with hs | hs <;> omega

/-- Witness for `mouse_fill_index_inv` at the initial device. -/
theorem mouse_fill_index_inv_witness :
    MouseReach 100 (mouse_init true) ∧
    ((mouse_init true).packet_idx = 0 ∧
     ((mouse_init true).current_packet_size = 3 ∨
      (mouse_init true).current_packet_size = 4) ∧
     (mouse_init true).packet_idx < (mouse_init true).current_packet_size ∧
     (∀ (e : MouseDev) (b : Bool),
       (mouse_apply 100 e (MouseOp.setMode b)).packet_idx = 0)) :=
  ⟨MouseReach.init, mouse_fill_index_inv 100 (mouse_init true) MouseReach.init⟩

/-- The pointwise statistics order is reflexive. -/
theorem statsLE_refl (a : MouseStats) : statsLE a a := by
  unfold statsLE
  omega

/-- The pointwise statistics order is transitive. -/
theorem statsLE_trans {a b c : MouseStats}
    (hab : statsLE a b) (hbc : statsLE b c) : statsLE a c := by
  unfold statsLE at hab hbc ⊢
  omega

/-- The total-packets bump does not decrease any unsigned statistic. -/
theorem add_total_le (st : MouseStats) : statsLE st (add_total st) := by
  unfold add_total statsLE
  dsimp only
  omega

/-- The left-click bump does not decrease any unsigned statistic. -/
theorem add_left_le (m : MotionState) (st : MouseStats) :
    statsLE st (add_left m st) := by
  unfold add_left statsLE
  split <;> ((try dsimp only); omega)

/-- The right-click bump does not decrease any unsigned statistic. -/
theorem add_right_le (m : MotionState) (st : MouseStats) :
    statsLE st (add_right m st) := by
  unfold add_right statsLE
  split <;> ((try dsimp only); omega)

/-- The middle-click bump does not decrease any unsigned statistic. -/
theorem add_middle_le (m : MotionState) (st : MouseStats) :
    statsLE st (add_middle m st) := by
  unfold add_middle statsLE
  split <;> ((try dsimp only); omega)

/-- The side-click bump does not decrease any unsigned statistic. -/
theorem add_side_le (m : MotionState) (st : MouseStats) :
    statsLE st (add_side m st) := by
  unfold add_side statsLE
  split <;> ((try dsimp only); omega)

/-- The forward-click bump does not decrease any unsigned statistic. -/
theorem add_forward_le (m : MotionState) (st : MouseStats) :
    statsLE st (add_forward m st) := by
  unfold add_forward statsLE
  split <;> ((try dsimp only); omega)

/-- The scroll-event bump does not decrease any unsigned statistic. -/
theorem add_scroll_le (m : MotionState) (st : MouseStats) :
    statsLE st (add_scroll m st) := by
  unfold add_scroll statsLE
  split <;> ((try dsimp only); omega)

/-- The displacement update does not decrease any unsigned statistic. -/
theorem add_motion_le (m : MotionState) (st : MouseStats) :
    statsLE st (add_motion m st) := by
  unfold add_motion statsLE
  dsimp only
  omega

/-- The whole statistics block of a decoded frame is monotone on the
unsigned statistics. -/
theorem update_stats_le (m : MotionState) (st : MouseStats) :
    statsLE st (update_stats m st) := by
  unfold update_stats
  exact statsLE_trans (statsLE_trans (statsLE_trans (statsLE_trans
    (statsLE_trans (statsLE_trans (statsLE_trans
      (add_total_le st) (add_left_le m _)) (add_right_le m _))
      (add_middle_le m _)) (add_side_le m _)) (add_forward_le m _))
      (add_scroll_le m _)) (add_motion_le m _)

/-- `process_packet` is monotone on the unsigned statistics. -/
theorem process_packet_le (dpi : Int) (size : Nat) (pkt : Nat → Nat)
    (st : MouseStats) : statsLE st (process_packet dpi size pkt st).1 := by
  unfold process_packet
  split
  · show statsLE st { st with invalid_packets := st.invalid_packets + 1 }
    unfold statsLE
    dsimp only
    omega
  · show statsLE st (update_stats (decode_packet dpi size pkt) st)
    exact update_stats_le _ _

/-- One tasklet step of the mouse driver is monotone on the unsigned
statistics. -/
theorem mouse_feed_le (dpi : Int) (d : MouseDev) (b : Nat) :
    statsLE d.stats (mouse_feed dpi d b).1.stats := by
  unfold mouse_feed
  split
  · show statsLE d.stats (process_packet dpi d.current_packet_size
      (fun i => if i = d.packet_idx then b else d.packet i) d.stats).1
    exact process_packet_le _ _ _ _
  · exact statsLE_refl _

/-- Draining a whole byte list is monotone on the unsigned statistics. -/
theorem feedList_le (dpi : Int) :
    ∀ (bs : List Nat) (d : MouseDev),
      statsLE d.stats (feedList dpi d bs).stats := by
  intro bs
  induction bs with
  | nil => intro d; exact statsLE_refl _
  | cons b bs ih =>
    intro d
    show statsLE d.stats (feedList dpi (mouse_feed dpi d b).1 bs).stats
    exact statsLE_trans (mouse_feed_le dpi d b) (ih (mouse_feed dpi d b).1)

/-- Every sequential sysfs operation of the mouse driver is monotone on
the unsigned statistics. -/
theorem mouse_apply_le (dpi : Int) (d : MouseDev) (op : MouseOp) :
    statsLE d.stats (mouse_apply dpi d op).stats := by
  cases op with
  | setMode b => exact statsLE_refl d.stats
  | inject vs =>
    show statsLE d.stats (mouse_inject dpi d vs).stats
    unfold mouse_inject
    split_ifs with h1 h2 h3
    · exact statsLE_refl d.stats
    · exact feedList_le dpi (vs.take d.current_packet_size)
        { d with current_packet_size := 3 }
    · exact feedList_le dpi (vs.take d.current_packet_size) d
    · exact statsLE_refl d.stats

/-- One tasklet step of the keyboard driver never decreases any of its
counters. -/
theorem kbd_feed_counters (d : KbdDev) (b : Nat) :
    d.total_keypresses ≤ (kbd_feed d b).1.total_keypresses ∧
    d.total_keyreleases ≤ (kbd_feed d b).1.total_keyreleases ∧
    d.unknown_scancodes ≤ (kbd_feed d b).1.unknown_scancodes ∧
    d.combo_detections ≤ (kbd_feed d b).1.combo_detections := by
  have hm : ∀ (kc : Nat) (r : Bool) (e : KbdDev),
      (kbd_modifiers kc r e).total_keypresses = e.total_keypresses ∧
      (kbd_modifiers kc r e).total_keyreleases = e.total_keyreleases ∧
      (kbd_modifiers kc r e).unknown_scancodes = e.unknown_scancodes ∧
      (kbd_modifiers kc r e).combo_detections = e.combo_detections :=
    fun _ _ _ => ⟨rfl, rfl, rfl, rfl⟩
  have hl : ∀ (kc : Nat) (r : Bool) (e : KbdDev),
      (kbd_locks kc r e).total_keypresses = e.total_keypresses ∧
      (kbd_locks kc r e).total_keyreleases = e.total_keyreleases ∧
      (kbd_locks kc r e).unknown_scancodes = e.unknown_scancodes ∧
      (kbd_locks kc r e).combo_detections = e.combo_detections := by
    intro kc r e
    unfold kbd_locks
    split <;> exact ⟨rfl, rfl, rfl, rfl⟩
  have hcb : ∀ (kc : Nat) (r : Bool) (e : KbdDev),
      (kbd_combos kc r e).total_keypresses = e.total_keypresses ∧
      (kbd_combos kc r e).total_keyreleases = e.total_keyreleases ∧
      (kbd_combos kc r e).unknown_scancodes = e.unknown_scancodes ∧
      e.combo_detections ≤ (kbd_combos kc r e).combo_detections := by
    intro kc r e
    refine ⟨rfl, rfl, rfl, ?_⟩
    show e.combo_detections ≤ e.combo_detections + _
    omega
  have hct : ∀ (r : Bool) (e : KbdDev),
      e.total_keypresses ≤ (kbd_count r e).total_keypresses ∧
      e.total_keyreleases ≤ (kbd_count r e).total_keyreleases ∧
      (kbd_count r e).unknown_scancodes = e.unknown_scancodes ∧
      (kbd_count r e).combo_detections = e.combo_detections := by
    intro r e
    unfold kbd_count
    split
    · exact ⟨Nat.le_refl _, Nat.le_succ _, rfl, rfl⟩
    · exact ⟨Nat.le_succ _, Nat.le_refl _, rfl, rfl⟩
  unfold kbd_feed
  split
  · dsimp only
    omega
  · dsimp only
    have H2 := hl (scancode_map (b % 128)) (Nat.testBit b 7)
      (kbd_modifiers (scancode_map (b % 128)) (Nat.testBit b 7) d)
    have H3 := hcb (scancode_map (b % 128)) (Nat.testBit b 7)
      (kbd_locks (scancode_map (b % 128)) (Nat.testBit b 7)
        (kbd_modifiers (scancode_map (b % 128)) (Nat.testBit b 7) d))
    have H4 := hct (Nat.testBit b 7)
      (kbd_combos (scancode_map (b % 128)) (Nat.testBit b 7)
        (kbd_locks (scancode_map (b % 128)) (Nat.testBit b 7)
          (kbd_modifiers (scancode_map (b % 128)) (Nat.testBit b 7) d)))
    have H1 := hm (scancode_map (b % 128)) (Nat.testBit b 7) d
    omega

/-- C7 counterexample: the signed horizontal displacement sum decreases
when a frame with a negative X displacement is processed, so it is not
monotonically non-decreasing. Feeding the valid 3-byte frame
`[0x08, 0xFF, 0x00]` (`dx_raw = -1`) at scale 100 to a fresh device takes
`total_dx` from 0 to -1. -/
theorem stats_dx_decreases_cex :
    (feedList 100 (mouse_init false) [0x08, 0xFF, 0x00]).stats.total_dx
      < (mouse_init false).stats.total_dx := by
  decide

/-- C7 amended: every unsigned statistic — the counters and the
Manhattan-distance sum — is monotonically non-decreasing across every
operation of both drivers (queue push and pop, a mouse tasklet step, a
whole sequential sysfs operation, a keyboard tasklet step), and hence none
of them is ever reset; the signed displacement sums are exempt. -/
theorem stats_monotone :
    (∀ (q : ByteQueue) (b : Nat), q.overflows ≤ (buffer_push q b).overflows) ∧
    (∀ q : ByteQueue, (buffer_pop q).2.overflows = q.overflows) ∧
    (∀ (dpi : Int) (size : Nat) (pkt : Nat → Nat) (st : MouseStats),
      statsLE st (process_packet dpi size pkt st).1) ∧
    (∀ (dpi : Int) (d : MouseDev) (b : Nat),
      statsLE d.stats (mouse_feed dpi d b).1.stats) ∧
    (∀ (dpi : Int) (d : MouseDev) (op : MouseOp),
      statsLE d.stats (mouse_apply dpi d op).stats) ∧
    (∀ (d : KbdDev) (b : Nat),
      d.total_keypresses ≤ (kbd_feed d b).1.total_keypresses ∧
      d.total_keyreleases ≤ (kbd_feed d b).1.total_keyreleases ∧
      d.unknown_scancodes ≤ (kbd_feed d b).1.unknown_scancodes ∧
      d.combo_detections ≤ (kbd_feed d b).1.combo_detections) := by
  refine ⟨?_, ?_, process_packet_le, mouse_feed_le, mouse_apply_le,
          kbd_feed_counters⟩
  · intro q b
    unfold buffer_push
    split
    · exact Nat.le_refl _
    · exact Nat.le_succ _
  · intro q
    unfold buffer_pop
    split <;> rfl

end KMDD
